import Mathlib

/-!
Verification development for the claude-flow MCP protocol-and-dispatch core.

Shallow embedding of:
* the Async Job Manager (src/mcp/async/job-manager-mcp25.js),
* the Version Negotiator (src/mcp/protocol/version-negotiation.js),
* the Protocol Server tool-call dispatch (src/mcp/server-mcp-2025.js),
* the Dynamic Tool Loader (src/mcp/tools/loader.js).

JavaScript `Map` objects are embedded as association lists with
replace-on-set semantics; the wall clock is passed explicitly as a `Nat`
timestamp; asynchronous executor runs are split into explicit state
transitions (`startJob`, `reportProgress`, `completeJob`) exactly mirroring
the mutations the source performs before/after its `await` points.
-/

namespace ClaudeFlow

/-- JS `Map.get`: lookup by key in an association list. -/
def mapGet {α : Type} (m : List (String × α)) (k : String) : Option α :=
  (m.find? (fun p => p.1 = k)).map Prod.snd

/-- JS `Map.set`: replace any existing binding for the key, add the new one. -/
def mapSet {α : Type} (m : List (String × α)) (k : String) (v : α) : List (String × α) :=
  m.filter (fun p => p.1 ≠ k) ++ [(k, v)]

/-- JS `config.x || dflt` for numeric config fields (0 is falsy). -/
def jsOr (v dflt : Nat) : Nat := if v = 0 then dflt else v

/-! ### Async Job Manager — src/mcp/async/job-manager-mcp25.js -/

/-- Job lifecycle states of the job manager's state machine. -/
inductive JobStatus
  | queued
  | running
  | success
  | error
  | cancelled
  deriving DecidableEq, Repr

/-- A job record. Payloads (`arguments`, `result`) are opaque to the manager
and embedded as strings; `error` holds the captured error message. -/
structure Job where
  request_id : String
  job_id : String
  tool_id : String
  arguments : String
  status : JobStatus
  progress : Nat
  progress_message : Option String := none
  result : Option String := none
  error : Option String := none
  created_at : Nat
  started_at : Option Nat := none
  completed_at : Option Nat := none
  deriving DecidableEq, Repr

/-- A modern tool-call request `{request_id, tool_id, arguments, mode}`. -/
structure ToolCallRequest where
  request_id : String
  tool_id : String
  arguments : String
  mode : Option String := none
  deriving DecidableEq, Repr

/-- The handle returned by `submitJob`/`pollJob`:
`{request_id, job_id, status, poll_after, progress?}`. -/
structure JobHandle where
  request_id : String
  job_id : String
  status : String
  poll_after : Nat
  progress : Option (Nat × Option String) := none
  deriving DecidableEq, Repr

/-- State of `MCPAsyncJobManager`: the in-memory `jobs` map, the
`MemoryJobPersistence` store (`persisted`), the config fields, and a
counter modelling the uuid generator (`nextId`). -/
structure JobManagerState where
  jobs : List (String × Job)
  persisted : List (String × Job)
  maxJobs : Nat
  jobTTL : Nat
  defaultPollInterval : Nat
  nextId : Nat
  deriving Repr

/-- The id string produced for the `nextId`-th uuid draw. -/
def jobIdStr (n : Nat) : String := "job-" ++ toString n

/-- The constructor: `maxJobs = config.maxJobs || 1000`,
`jobTTL = config.jobTTL || 86400000`,
`defaultPollInterval = config.defaultPollInterval || 5`. -/
def mkJobManager (maxJobs jobTTL pollInterval : Nat) : JobManagerState :=
  { jobs := [], persisted := [], maxJobs := jsOr maxJobs 1000,
    jobTTL := jsOr jobTTL 86400000,
    defaultPollInterval := jsOr pollInterval 5, nextId := 0 }

/-- `submitJob`: reject when `jobs.size >= maxJobs`; otherwise build the job
in `queued` state, `persistence.save` it, `jobs.set` it, and return the
`in_progress` handle immediately (execution runs later, see `startJob`,
`completeJob`). -/
def submitJob (st : JobManagerState) (now : Nat) (req : ToolCallRequest) :
    Except String JobHandle × JobManagerState :=
  if st.maxJobs ≤ st.jobs.length then
    (Except.error "Job queue full. Please try again later.", st)
  else
    let jid := jobIdStr st.nextId
    let job : Job := { request_id := req.request_id, job_id := jid,
                       tool_id := req.tool_id, arguments := req.arguments,
                       status := .queued, progress := 0, created_at := now }
    (Except.ok { request_id := req.request_id, job_id := jid,
                 status := "in_progress", poll_after := st.defaultPollInterval },
     { st with persisted := mapSet st.persisted jid job,
               jobs := mapSet st.jobs jid job,
               nextId := st.nextId + 1 })

/-- First phase of `executeJob`: set `status = running`, stamp `started_at`,
persist. (The source mutates the job object captured at submission; the
embedding looks it up by id — `submitJob` always inserts it first.) -/
def startJob (st : JobManagerState) (now : Nat) (jid : String) : JobManagerState :=
  match mapGet st.jobs jid with
  | none => st
  | some job =>
    let job' := { job with status := .running, started_at := some now }
    { st with jobs := mapSet st.jobs jid job',
              persisted := mapSet st.persisted jid job' }

/-- The `onProgress` callback: clamp percent to [0,100], store the message,
persist (persistence failures are only logged in the source). -/
def reportProgress (st : JobManagerState) (jid : String) (percent : Int)
    (message : Option String) : JobManagerState :=
  match mapGet st.jobs jid with
  | none => st
  | some job =>
    let job' := { job with progress := (min 100 (max 0 percent)).toNat,
                           progress_message := message }
    { st with jobs := mapSet st.jobs jid job',
              persisted := mapSet st.persisted jid job' }

/-- Second phase of `executeJob`, run when the executor settles. On success
the source unconditionally sets `status = success`, stores the result,
forces progress to 100 and stamps `completed_at`; on failure it sets
`status = error`, captures the message and stamps `completed_at`. There is
no check of the job's current status in either branch. -/
def completeJob (st : JobManagerState) (now : Nat) (jid : String)
    (outcome : Except String String) : JobManagerState :=
  match mapGet st.jobs jid with
  | none => st
  | some job =>
    match outcome with
    | Except.ok res =>
      let job' := { job with status := .success, result := some res,
                             progress := 100, completed_at := some now }
      { st with jobs := mapSet st.jobs jid job',
                persisted := mapSet st.persisted jid job' }
    | Except.error msg =>
      let job' := { job with status := .error, error := some msg,
                             completed_at := some now }
      { st with jobs := mapSet st.jobs jid job',
                persisted := mapSet st.persisted jid job' }

/-- `cancelJob`: unknown id returns false; a job whose status is `success`
or `error` returns false; otherwise set `status = cancelled`, stamp
`completed_at`, persist, return true. (Note the source does not treat
`cancelled` itself as terminal here.) -/
def cancelJob (st : JobManagerState) (now : Nat) (jid : String) :
    Bool × JobManagerState :=
  match mapGet st.jobs jid with
  | none => (false, st)
  | some job =>
    if job.status = JobStatus.success ∨ job.status = JobStatus.error then
      (false, st)
    else
      let job' := { job with status := .cancelled, completed_at := some now }
      (true, { st with jobs := mapSet st.jobs jid job',
                       persisted := mapSet st.persisted jid job' })

/-- The status string `pollJob`/`resumeJob` report:
`'success'`/`'error'` pass through, every other state is `'in_progress'`. -/
def pollStatusString (s : JobStatus) : String :=
  if s = JobStatus.success then "success"
  else if s = JobStatus.error then "error"
  else "in_progress"

/-- `pollJob`: load from persistence; unknown id is an error; build the
handle with `poll_after = defaultPollInterval` while `in_progress`, else 0;
attach a progress snapshot only while `in_progress`. Returns the state
unchanged (read-only method). -/
def pollJob (st : JobManagerState) (jid : String) :
    Except String JobHandle × JobManagerState :=
  match mapGet st.persisted jid with
  | none => (Except.error ("Job not found: " ++ jid), st)
  | some job =>
    let status := pollStatusString job.status
    let handle : JobHandle :=
      { request_id := job.request_id
        job_id := job.job_id
        status := status
        poll_after := if status = "in_progress" then st.defaultPollInterval else 0
        progress := if status = "in_progress"
                    then some (job.progress, job.progress_message) else none }
    (Except.ok handle, st)

/-- JS `v || dflt` on an optional string ("" is falsy). -/
def jsOrStr (v : Option String) (dflt : String) : String :=
  match v with
  | some s => if s = "" then dflt else s
  | none => dflt

/-- The structured result of `resumeJob`. The error payload is
`(code, message)`; `duration_ms` is present only when both timestamps are. -/
structure ResumeResult where
  request_id : String
  status : String
  result : Option String := none
  error : Option (String × String) := none
  progress : Option (Nat × Option String) := none
  duration_ms : Option Int := none
  deriving DecidableEq, Repr

/-- `resumeJob`: load from persistence; unknown id is an error; on `success`
return the result and the elapsed duration, on `error` a structured
`EXECUTION_ERROR` payload, otherwise a progress snapshot. Read-only. -/
def resumeJob (st : JobManagerState) (jid : String) :
    Except String ResumeResult × JobManagerState :=
  match mapGet st.persisted jid with
  | none => (Except.error ("Job not found: " ++ jid), st)
  | some job =>
    if job.status = JobStatus.success then
      let r : ResumeResult :=
        { request_id := job.request_id
          status := "success"
          result := job.result
          duration_ms := match job.completed_at, job.started_at with
            | some c, some s => some ((c : Int) - (s : Int))
            | _, _ => none }
      (Except.ok r, st)
    else if job.status = JobStatus.error then
      let r : ResumeResult :=
        { request_id := job.request_id
          status := "error"
          error := some ("EXECUTION_ERROR", jsOrStr job.error "Job execution failed") }
      (Except.ok r, st)
    else
      let r : ResumeResult :=
        { request_id := job.request_id
          status := "in_progress"
          progress := some (job.progress, job.progress_message) }
      (Except.ok r, st)

/-- The uuid generator never redraws an id already in either map. -/
def FreshIds (st : JobManagerState) : Prop :=
  ∀ k, st.nextId ≤ k →
    mapGet st.jobs (jobIdStr k) = none ∧ mapGet st.persisted (jobIdStr k) = none

/-! ### Version Negotiator — src/mcp/protocol/version-negotiation.js -/

/-- State of `VersionNegotiator` (its three fields, mutable via
`addCapability`/`removeCapability`). -/
structure NegotiatorState where
  supportedVersions : List String
  serverVersion : String
  serverCapabilities : List String
  deriving Repr

/-- The field initializers of `VersionNegotiator`. -/
def defaultNegotiator : NegotiatorState :=
  { supportedVersions := ["2025-11", "2024-11"]
    serverVersion := "2025-11"
    serverCapabilities := ["async", "registry", "code_exec", "stream"] }

/-- A client handshake. Absent string fields are embedded as `""` (both are
falsy in the JS validity check); `capabilities` is a typed list, so the
`Array.isArray` part of the source's check holds by construction. -/
structure Handshake where
  mcp_version : String
  transport : String
  capabilities : List String
  client_id : Option String := none
  deriving Repr

/-- `isValidHandshake`:
`!!(handshake.mcp_version && handshake.transport && Array.isArray(capabilities))`. -/
def isValidHandshake (h : Handshake) : Bool :=
  decide (h.mcp_version ≠ "") && decide (h.transport ≠ "")

/-- Decimal digit test for `Number` conversion. -/
def isDigitChar (c : Char) : Bool := decide ('0' ≤ c) && decide (c ≤ '9')

/-- JS `Number(s)` on the strings produced by splitting a version token:
the empty string converts to 0, digit strings to their value, anything
else is NaN (embedded as `none`). Operates on the string's characters so
that concrete versions evaluate by `decide`. -/
def jsNumber (cs : List Char) : Option Int :=
  if cs.isEmpty then some 0
  else if cs.all isDigitChar then
    some (Int.ofNat (cs.foldl (fun acc c => 10 * acc + (c.toNat - 48)) 0))
  else none

/-- `parseVersion`: split on `'-'`, convert the first two components with
`Number`. A single-component or non-numeric version yields NaN dates
(`none`). The `Date(year, month-1, 1)` normalization is captured by
`monthIndex` below, which is invariant under JS month-overflow
normalization. -/
def parseVersion (v : String) : Option (Int × Int) :=
  match (v.data.splitOn '-').map jsNumber with
  | some y :: some m :: _ => some (y, m)
  | _ => none

/-- The absolute month number of `Date(year, month-1, 1)`:
`getFullYear() * 12 + getMonth()`. -/
def monthIndex (p : Int × Int) : Int := p.1 * 12 + p.2 - 1

/-- `getMonthsDifference(date1, date2) = (y2-y1)*12 + m2 - m1`, with
`date1` the client and `date2` the server. -/
def getMonthsDifference (client server : Int × Int) : Int :=
  monthIndex server - monthIndex client

/-- Result of `checkVersionCompatibility`. -/
structure VersionCheck where
  compatible : Bool
  version : String
  error : Option String := none
  deriving Repr, DecidableEq

/-- `checkVersionCompatibility`: exact match accepts the client version;
a version in `supportedVersions` accepts the client version; otherwise
compare month distance — when it exceeds 1 the check fails, else accept
pinned to the server version. When either version parses to NaN the JS
comparison `Math.abs(NaN) > 1` is false, so the check accepts (embedded as
the `false` arm of the match). -/
def checkVersionCompatibility (sv : NegotiatorState) (clientVersion : String) :
    VersionCheck :=
  if clientVersion = sv.serverVersion then
    { compatible := true, version := clientVersion }
  else if sv.supportedVersions.contains clientVersion then
    { compatible := true, version := clientVersion }
  else
    let exceeds :=
      match parseVersion clientVersion, parseVersion sv.serverVersion with
      | some c, some s => decide (1 < (getMonthsDifference c s).natAbs)
      | _, _ => false
    if exceeds then
      { compatible := false
        version := sv.serverVersion
        error := some ("Version mismatch: client " ++ clientVersion ++ ", server "
                       ++ sv.serverVersion ++ ". Difference exceeds 1 cycle.") }
    else { compatible := true, version := sv.serverVersion }

/-- `negotiateCapabilities`:
`clientCapabilities.filter(cap => serverCapabilities.includes(cap))`. -/
def negotiateCapabilities (sv : NegotiatorState) (clientCapabilities : List String) :
    List String :=
  clientCapabilities.filter (fun cap => sv.serverCapabilities.contains cap)

/-- Result of `negotiate`. -/
structure NegotiationResult where
  success : Bool
  agreed_version : String
  agreed_capabilities : List String
  error : Option String := none
  deriving Repr, DecidableEq

/-- `negotiate`: reject malformed handshakes; then check version
compatibility; on success intersect capabilities. -/
def negotiate (sv : NegotiatorState) (h : Handshake) : NegotiationResult :=
  if !(isValidHandshake h) then
    { success := false
      agreed_version := sv.serverVersion
      agreed_capabilities := []
      error := some "Invalid handshake structure" }
  else
    let vr := checkVersionCompatibility sv h.mcp_version
    if vr.compatible then
      { success := true
        agreed_version := vr.version
        agreed_capabilities := negotiateCapabilities sv h.capabilities }
    else
      { success := false
        agreed_version := sv.serverVersion
        agreed_capabilities := []
        error := vr.error }

/-! ### Protocol Server tool-call dispatch — src/mcp/server-mcp-2025.js -/

/-- A fully loaded tool as the dispatch path sees it: its declared name and
its handler, embedded as a pure function from the (opaque) arguments to the
result. Output-schema validation on the sync path is log-only in the source
and does not alter the response, so it has no counterpart here. -/
structure Tool where
  name : String
  handler : String → String

/-- A per-session record stored at handshake time. -/
structure Session where
  clientId : String
  version : String
  capabilities : List String
  isLegacy : Bool

/-- The server config bits `handleToolCall` branches on:
`validation.enabled` and whether `jobManager` was initialized
(`config.async.enabled`). -/
structure ServerConfig where
  validationEnabled : Bool
  asyncEnabled : Bool

/-- Outcome of `handleToolCall`. The legacy path handles a differently
shaped request through the compatibility adapter and is embedded opaquely
(`legacyHandled`); `asyncSubmitted` marks delegation to
`jobManager.submitJob`; `syncResult` is the synchronous response
`{request_id, status, result, metadata.duration_ms}`. -/
inductive ToolCallResult
  | legacyHandled
  | asyncSubmitted (req : ToolCallRequest)
  | syncResult (request_id : String) (status : String) (result : String)
      (duration_ms : Nat)

/-- `handleToolCall`: legacy sessions go to the legacy path; a missing
`tool_id` (absent embedded as `""`) throws; an unresolvable tool throws;
enabled input validation throws on invalid input; then the async path is
taken only when `mode = 'async'` AND the session has the `async`
capability AND the job manager exists; otherwise the tool runs
synchronously. `dur` is the measured wall-clock duration of the handler. -/
def handleToolCall (cfg : ServerConfig) (session : Option Session)
    (getTool : String → Option Tool) (validateInput : String → Bool)
    (req : ToolCallRequest) (dur : Nat) : Except String ToolCallResult :=
  if (session.map Session.isLegacy).getD false then
    Except.ok ToolCallResult.legacyHandled
  else if req.tool_id = "" then
    Except.error "Missing tool_id in request"
  else
    match getTool req.tool_id with
    | none => Except.error ("Tool not found: " ++ req.tool_id)
    | some tool =>
      if cfg.validationEnabled && !(validateInput req.arguments) then
        Except.error "Invalid input"
      else
        let hasAsyncCapability :=
          (session.map (fun s => s.capabilities.contains "async")).getD false
        let isAsyncRequest := (req.mode == some "async") && hasAsyncCapability
        if isAsyncRequest && cfg.asyncEnabled then
          Except.ok (ToolCallResult.asyncSubmitted req)
        else
          Except.ok (ToolCallResult.syncResult req.request_id "success"
            (tool.handler req.arguments) dur)

/-! ### Dynamic Tool Loader — src/mcp/tools/loader.js -/

/-- A `ToolMetadata` entry as produced by `scanTools`. -/
structure ToolMetadataEntry where
  name : String
  description : String
  category : String
  tags : List String
  detailLevel : String
  filePath : String
  deriving DecidableEq, Repr

/-- The loader's two caches. -/
structure LoaderState where
  metadataCache : List (String × ToolMetadataEntry)
  toolCache : List (String × Tool)

/-- `loadTool`: a cache hit returns the cached instance; a name absent from
the metadata cache returns null; otherwise dynamically import the file and
invoke its creator function (embedded together as `importTool`, with `none`
covering both an import failure and a missing creator, both of which the
source turns into null), cache the instance under the requested name (a
declared-name mismatch is only logged) and return it. The final `Nat`
counts dynamic imports performed by the call. -/
def loadTool (importTool : String → Option Tool) (st : LoaderState)
    (toolName : String) : Option Tool × LoaderState × Nat :=
  match mapGet st.toolCache toolName with
  | some t => (some t, st, 0)
  | none =>
    match mapGet st.metadataCache toolName with
    | none => (none, st, 0)
    | some meta =>
      match importTool meta.filePath with
      | none => (none, st, 1)
      | some tool =>
        (some tool, { st with toolCache := mapSet st.toolCache toolName tool }, 1)

/-- A `searchTools` query; absent fields are `none`. -/
structure SearchQuery where
  category : Option String := none
  tags : Option (List String) := none
  namePattern : Option String := none
  detailLevel : Option String := none
  deriving Repr

/-- JS `String.toLowerCase` followed by viewing the string as characters
(ASCII-faithful; tool names and descriptions in the tree are ASCII). -/
def toLowerChars (s : String) : List Char := s.data.map Char.toLower

/-- The exact-match guards (`query.category`, `query.detailLevel`): JS
truthiness makes an absent or empty query field skip the filter, otherwise
the entry's field must equal it. -/
def exactGuard (o : Option String) (v : String) : Bool :=
  match o with
  | some c => if c = "" then true else decide (v = c)
  | none => true

/-- The tag guard: an absent or empty `query.tags` skips the filter,
otherwise every query tag must be contained in the entry's tags
(`query.tags.every(tag => toolTags.includes(tag))`). -/
def tagsGuard (o : Option (List String)) (tags : List String) : Bool :=
  match o with
  | some ts => if ts.length = 0 then true
               else ts.all (fun t => tags.contains t)
  | none => true

/-- The name-pattern guard: an absent or empty `query.namePattern` skips
the filter, otherwise the lowercased pattern must occur as a substring of
the lowercased name OR the lowercased description. -/
def patternGuard (o : Option String) (nm desc : String) : Bool :=
  match o with
  | some p => if p = "" then true
              else decide (List.IsInfix (toLowerChars p) (toLowerChars nm)) ||
                   decide (List.IsInfix (toLowerChars p) (toLowerChars desc))
  | none => true

/-- The conjunction of `searchTools`' four `continue` guards, in source
order. -/
def matchesQuery (q : SearchQuery) (m : ToolMetadataEntry) : Bool :=
  exactGuard q.category m.category &&
  exactGuard q.detailLevel m.detailLevel &&
  tagsGuard q.tags m.tags &&
  patternGuard q.namePattern m.name m.description

/-- The sort key of `searchTools`' final
`results.sort((a,b) => a.name.localeCompare(b.name))`, embedded as the
lexicographic order on names. -/
def metaLe (a b : ToolMetadataEntry) : Prop := a.name ≤ b.name

instance : DecidableRel metaLe :=
  fun a b => (inferInstance : Decidable (a.name ≤ b.name))

instance : IsTotal ToolMetadataEntry metaLe :=
  ⟨fun a b => le_total a.name b.name⟩

instance : IsTrans ToolMetadataEntry metaLe :=
  ⟨fun _ _ _ h1 h2 => le_trans h1 h2⟩

/-- `searchTools`: linear scan over the metadata map's values collecting
every entry passing all guards, then sort by name. -/
def searchTools (st : LoaderState) (q : SearchQuery) : List ToolMetadataEntry :=
  List.insertionSort metaLe
    ((st.metadataCache.map Prod.snd).filter (matchesQuery q))

/-! ### Concrete fixtures for traces and witnesses -/

/-- A concrete tool-call request. -/
def demoRequest : ToolCallRequest :=
  { request_id := "r1", tool_id := "t1", arguments := "a" }

/-- State after submitting `demoRequest` to a fresh manager at t=0. -/
def c1Submitted : JobManagerState :=
  (submitJob (mkJobManager 0 0 0) 0 demoRequest).2

/-- …after the execution step starts the job at t=1. -/
def c1Running : JobManagerState := startJob c1Submitted 1 (jobIdStr 0)

/-- …after `cancelJob` at t=2 while the executor is in flight. -/
def c1Cancelled : JobManagerState := (cancelJob c1Running 2 (jobIdStr 0)).2

/-- …after the in-flight executor completes successfully at t=3. -/
def c1Completed : JobManagerState :=
  completeJob c1Cancelled 3 (jobIdStr 0) (Except.ok "res")

/-- A job record sitting in the `cancelled` state. -/
def pollDemoJob : Job :=
  { request_id := "r2", job_id := "j", tool_id := "t", arguments := "a",
    status := .cancelled, progress := 40, created_at := 0,
    completed_at := some 2 }

/-- A manager holding `pollDemoJob` in both maps. -/
def pollDemoState : JobManagerState :=
  { mkJobManager 0 0 0 with
      jobs := [("j", pollDemoJob)], persisted := [("j", pollDemoJob)] }

/-- A concrete fully loaded tool. -/
def c9Tool : Tool := { name := "alpha", handler := fun s => s ++ "!" }

/-- A concrete import environment: only the file `"sys/alpha.js"` resolves. -/
def c9Import : String → Option Tool :=
  fun path => if path = "sys/alpha.js" then some c9Tool else none

/-- Metadata for `c9Tool`. -/
def c9Meta : ToolMetadataEntry :=
  { name := "alpha", description := "first tool", category := "sys",
    tags := ["x"], detailLevel := "standard", filePath := "sys/alpha.js" }

/-- Loader state after the metadata scan, before any full load. -/
def c9Loader : LoaderState :=
  { metadataCache := [("alpha", c9Meta)], toolCache := [] }

/-- A non-legacy session without the `async` capability. -/
def c6Session : Session :=
  { clientId := "c", version := "2025-11", capabilities := ["registry"],
    isLegacy := false }

/-- A registry view where only tool `"t1"` resolves. -/
def c6GetTool : String → Option Tool :=
  fun nm => if nm = "t1" then some c9Tool else none

/-- An async-mode request for tool `"t1"`. -/
def c6Request : ToolCallRequest :=
  { request_id := "q1", tool_id := "t1", arguments := "in",
    mode := some "async" }

/-! ## Theorems -/

/-- Setting a key and reading it back yields the stored value. -/
theorem mapGet_mapSet_self {α : Type} (m : List (String × α)) (k : String)
    (v : α) : mapGet (mapSet m k v) k = some v := by
  unfold mapGet mapSet
  induction m with
  | nil => simp
  | cons a t ih =>
    by_cases h : a.1 = k
    · simp [List.filter_cons, h]
    · simp [List.filter_cons, List.find?_cons, h]

/-- C7: at the configured ceiling `submitJob` fails with the capacity error
and leaves the state untouched; below the ceiling it returns the
`in_progress` handle carrying the request id, a job id not previously in
the job map, and the configured poll interval, and the new state holds that
job in `queued` state in both the in-memory map and the persistence
store. -/
theorem submitJob_capacity_or_fresh_queued (st : JobManagerState) (now : Nat)
    (req : ToolCallRequest) (hfresh : FreshIds st) :
    (st.maxJobs ≤ st.jobs.length →
       submitJob st now req =
         (Except.error "Job queue full. Please try again later.", st)) ∧
    (st.jobs.length < st.maxJobs →
       (submitJob st now req).1 =
         Except.ok { request_id := req.request_id, job_id := jobIdStr st.nextId,
                     status := "in_progress",
                     poll_after := st.defaultPollInterval } ∧
       mapGet st.jobs (jobIdStr st.nextId) = none ∧
       mapGet (submitJob st now req).2.jobs (jobIdStr st.nextId) =
         some { request_id := req.request_id, job_id := jobIdStr st.nextId,
                tool_id := req.tool_id, arguments := req.arguments,
                status := .queued, progress := 0, created_at := now } ∧
       (mapGet (submitJob st now req).2.persisted (jobIdStr st.nextId)).map
           Job.status = some JobStatus.queued) := by
  constructor
  · intro h
    simp [submitJob, h]
  · intro h
    have h' : ¬ st.maxJobs ≤ st.jobs.length := by omega
    refine ⟨by simp [submitJob, h'], (hfresh st.nextId le_rfl).1, ?_, ?_⟩
    · simp [submitJob, h', mapGet_mapSet_self]
    · simp [submitJob, h', mapGet_mapSet_self]

/-- C7 witness: a fresh manager is below capacity; submitting returns the
handle and stores the queued job. -/
theorem submitJob_capacity_or_fresh_queued_witness :
    (submitJob (mkJobManager 0 0 0) 7 demoRequest).1 =
      Except.ok { request_id := demoRequest.request_id
                  job_id := jobIdStr (mkJobManager 0 0 0).nextId
                  status := "in_progress"
                  poll_after := (mkJobManager 0 0 0).defaultPollInterval } ∧
    mapGet (mkJobManager 0 0 0).jobs (jobIdStr (mkJobManager 0 0 0).nextId) =
      none ∧
    (mapGet (submitJob (mkJobManager 0 0 0) 7 demoRequest).2.persisted
        (jobIdStr (mkJobManager 0 0 0).nextId)).map Job.status =
      some JobStatus.queued := by
  have h := (submitJob_capacity_or_fresh_queued (mkJobManager 0 0 0) 7
    demoRequest (fun k _ => ⟨rfl, rfl⟩)).2 (by decide)
  exact ⟨h.1, h.2.1, h.2.2.2⟩

/-- C10: for a job id absent from the manager's maps, `cancelJob` returns
false without raising and without touching the state, while `pollJob` and
`resumeJob` raise the error "Job not found: <id>". -/
theorem unknownJob_cancel_false_poll_resume_raise (st : JobManagerState)
    (now : Nat) (jid : String) (h1 : mapGet st.jobs jid = none)
    (h2 : mapGet st.persisted jid = none) :
    cancelJob st now jid = (false, st) ∧
    pollJob st jid = (Except.error ("Job not found: " ++ jid), st) ∧
    resumeJob st jid = (Except.error ("Job not found: " ++ jid), st) := by
  refine ⟨?_, ?_, ?_⟩ <;> simp [cancelJob, pollJob, resumeJob, h1, h2]

/-- C10 witness: the id "nope" was never submitted to a fresh manager. -/
theorem unknownJob_cancel_false_poll_resume_raise_witness :
    cancelJob (mkJobManager 0 0 0) 4 "nope" = (false, mkJobManager 0 0 0) ∧
    pollJob (mkJobManager 0 0 0) "nope" =
      (Except.error ("Job not found: " ++ "nope"), mkJobManager 0 0 0) :=
  ⟨(unknownJob_cancel_false_poll_resume_raise (mkJobManager 0 0 0) 4 "nope"
      rfl rfl).1,
   (unknownJob_cancel_false_poll_resume_raise (mkJobManager 0 0 0) 4 "nope"
      rfl rfl).2.1⟩

/-- C1: the code does NOT detect a late executor completion as a no-op.
On the concrete trace submit → start → cancel(t=2) → executor success(t=3),
the cancel takes effect (status `cancelled`, `completed_at = 2`), yet the
completion afterwards overwrites the record: status becomes `success`, the
result is stored, and `completed_at` is overwritten to 3. -/
theorem cancelled_job_overwritten_by_late_completion :
    (cancelJob c1Running 2 (jobIdStr 0)).1 = true ∧
    (mapGet c1Cancelled.jobs (jobIdStr 0)).map Job.status =
      some JobStatus.cancelled ∧
    (mapGet c1Cancelled.jobs (jobIdStr 0)).bind Job.completed_at = some 2 ∧
    (mapGet c1Completed.jobs (jobIdStr 0)).map Job.status =
      some JobStatus.success ∧
    (mapGet c1Completed.jobs (jobIdStr 0)).bind Job.result = some "res" ∧
    (mapGet c1Completed.jobs (jobIdStr 0)).bind Job.completed_at = some 3 := by
  decide

/-- C2 counterexample: `cancelled` is a terminal state, yet `cancelJob` on
the already-cancelled job returns true (the claim says false) and
overwrites `completed_at` from 2 to 5 (the claim says unchanged). -/
theorem cancelJob_on_cancelled_returns_true :
    (mapGet c1Cancelled.jobs (jobIdStr 0)).map Job.status =
      some JobStatus.cancelled ∧
    (mapGet c1Cancelled.jobs (jobIdStr 0)).bind Job.completed_at = some 2 ∧
    (cancelJob c1Cancelled 5 (jobIdStr 0)).1 = true ∧
    (mapGet (cancelJob c1Cancelled 5 (jobIdStr 0)).2.jobs
        (jobIdStr 0)).bind Job.completed_at = some 5 := by
  decide

/-- C2 amended: `cancelJob` returns false and leaves the state unchanged
exactly for jobs in status `success` or `error`; for `queued`, `running`
AND ALSO already-`cancelled` jobs it returns true and (re)writes the record
to `cancelled` with a fresh `completed_at`. -/
theorem cancelJob_amended (st : JobManagerState) (now : Nat) (jid : String)
    (job : Job) (hget : mapGet st.jobs jid = some job) :
    ((job.status = JobStatus.success ∨ job.status = JobStatus.error) →
       cancelJob st now jid = (false, st)) ∧
    ((job.status = JobStatus.queued ∨ job.status = JobStatus.running ∨
        job.status = JobStatus.cancelled) →
       (cancelJob st now jid).1 = true ∧
       mapGet (cancelJob st now jid).2.jobs jid =
         some { job with status := JobStatus.cancelled,
                         completed_at := some now } ∧
       mapGet (cancelJob st now jid).2.persisted jid =
         some { job with status := JobStatus.cancelled,
                         completed_at := some now }) := by
  constructor
  · intro h
    simp [cancelJob, hget, h]
  · intro h
    have hne : ¬ (job.status = JobStatus.success ∨
        job.status = JobStatus.error) := by
      rcases h with h | h | h <;> simp [h]
    refine ⟨?_, ?_, ?_⟩ <;> simp [cancelJob, hget, hne, mapGet_mapSet_self]

/-- C2 amended witness: cancelling the already-cancelled demo job returns
true and re-stamps `completed_at` to 9. -/
theorem cancelJob_amended_witness :
    (cancelJob pollDemoState 9 "j").1 = true ∧
    mapGet (cancelJob pollDemoState 9 "j").2.jobs "j" =
      some { pollDemoJob with status := JobStatus.cancelled,
                              completed_at := some 9 } :=
  ⟨((cancelJob_amended pollDemoState 9 "j" pollDemoJob rfl).2
      (Or.inr (Or.inr rfl))).1,
   ((cancelJob_amended pollDemoState 9 "j" pollDemoJob rfl).2
      (Or.inr (Or.inr rfl))).2.1⟩

/-- C4 counterexample: a `cancelled` job is terminal, yet `pollJob` reports
it as `in_progress` with `poll_after = 5` (the configured interval), not
0. -/
theorem pollJob_cancelled_positive_poll_after :
    (mapGet c1Cancelled.persisted (jobIdStr 0)).map Job.status =
      some JobStatus.cancelled ∧
    ((pollJob c1Cancelled (jobIdStr 0)).1.toOption.map JobHandle.poll_after) =
      some 5 ∧
    ((pollJob c1Cancelled (jobIdStr 0)).1.toOption.map JobHandle.status) =
      some "in_progress" := by
  decide

/-- C4 amended: `pollJob` never mutates state; for jobs in status `success`
or `error` it returns `poll_after = 0` and no progress; for `queued`,
`running` AND ALSO `cancelled` jobs it reports `in_progress` with the
configured (always positive for a constructed manager) poll interval and a
progress snapshot. -/
theorem pollJob_amended (st : JobManagerState) (jid : String) (job : Job)
    (hget : mapGet st.persisted jid = some job) :
    (pollJob st jid).2 = st ∧
    ((job.status = JobStatus.success ∨ job.status = JobStatus.error) →
       (pollJob st jid).1 = Except.ok
         { request_id := job.request_id, job_id := job.job_id,
           status := pollStatusString job.status, poll_after := 0,
           progress := none }) ∧
    ((job.status = JobStatus.queued ∨ job.status = JobStatus.running ∨
        job.status = JobStatus.cancelled) →
       (pollJob st jid).1 = Except.ok
         { request_id := job.request_id, job_id := job.job_id,
           status := "in_progress", poll_after := st.defaultPollInterval,
           progress := some (job.progress, job.progress_message) }) ∧
    (∀ m t p, 0 < (mkJobManager m t p).defaultPollInterval) := by
  refine ⟨by simp [pollJob, hget], ?_, ?_, ?_⟩
  · intro h
    rcases h with h | h <;> simp [pollJob, hget, pollStatusString, h]
  · intro h
    rcases h with h | h | h <;> simp [pollJob, hget, pollStatusString, h]
  · intro m t p
    by_cases hp : p = 0 <;> simp [mkJobManager, jsOr, hp]
    exact Nat.pos_of_ne_zero hp

/-- C4 amended witness: polling the cancelled demo job leaves the state
unchanged and reports `in_progress` with the interval 5 and the progress
snapshot. -/
theorem pollJob_amended_witness :
    (pollJob pollDemoState "j").2 = pollDemoState ∧
    (pollJob pollDemoState "j").1 = Except.ok
      { request_id := pollDemoJob.request_id, job_id := pollDemoJob.job_id,
        status := "in_progress", poll_after := pollDemoState.defaultPollInterval,
        progress := some (pollDemoJob.progress, pollDemoJob.progress_message) } :=
  ⟨(pollJob_amended pollDemoState "j" pollDemoJob rfl).1,
   (pollJob_amended pollDemoState "j" pollDemoJob rfl).2.2.1
     (Or.inr (Or.inr rfl))⟩

/-- C3 counterexample: "2024-11" parses as a calendar token 12 months away
from the server's "2025-11" — more than one release cycle — yet
negotiation succeeds, because the explicit support list is consulted
before the month-distance check. -/
theorem negotiate_far_but_supported_succeeds :
    parseVersion "2024-11" = some (2024, 11) ∧
    parseVersion defaultNegotiator.serverVersion = some (2025, 11) ∧
    1 < (getMonthsDifference (2024, 11) (2025, 11)).natAbs ∧
    (negotiate defaultNegotiator
       { mcp_version := "2024-11", transport := "stdio",
         capabilities := [] }).success = true := by
  refine ⟨by decide, by decide, by decide, by decide⟩

/-- C3 amended: for a well-formed handshake whose version parses as a
YYYY-MM token, differs from the server version and is NOT in the explicit
support list: if the month distance exceeds one cycle, negotiation fails
with a non-empty error; if it is within one cycle, negotiation succeeds
with the agreed version pinned to the server's. -/
theorem negotiate_month_distance_amended (h : Handshake) (y m : Int)
    (hvalid : isValidHandshake h = true)
    (hparse : parseVersion h.mcp_version = some (y, m))
    (hnl : defaultNegotiator.supportedVersions.contains h.mcp_version = false)
    (hns : h.mcp_version ≠ defaultNegotiator.serverVersion) :
    (1 < (getMonthsDifference (y, m) (2025, 11)).natAbs →
       (negotiate defaultNegotiator h).success = false ∧
       (negotiate defaultNegotiator h).error ≠ none ∧
       (negotiate defaultNegotiator h).error ≠ some "") ∧
    ((getMonthsDifference (y, m) (2025, 11)).natAbs ≤ 1 →
       (negotiate defaultNegotiator h).success = true ∧
       (negotiate defaultNegotiator h).agreed_version =
         defaultNegotiator.serverVersion) := by
  have hsv : parseVersion defaultNegotiator.serverVersion = some (2025, 11) := by
    decide
  have hnl' : h.mcp_version ∉ defaultNegotiator.supportedVersions := by
    simpa using hnl
  constructor
  · intro hfar
    have hmsg : ("Version mismatch: client " ++ h.mcp_version ++ ", server "
        ++ defaultNegotiator.serverVersion ++ ". Difference exceeds 1 cycle.")
        ≠ "" := by
      intro hcontra
      have hlen := congrArg String.length hcontra
      simp only [String.length_append, String.length_empty] at hlen
      have h0 : 0 < ("Version mismatch: client ").length := by decide
      omega
    refine ⟨?_, ?_, ?_⟩ <;>
      simp [negotiate, hvalid, checkVersionCompatibility, hns, hnl', hparse,
        hsv, hfar, hmsg]
  · intro hnear
    have hfar' : ¬ 1 < (getMonthsDifference (y, m) (2025, 11)).natAbs := by
      omega
    constructor <;>
      simp [negotiate, hvalid, checkVersionCompatibility, hns, hnl', hparse,
        hsv, hfar']

/-- C3 amended witness: "2025-09" is well-formed, outside the support list
and 2 months away, so negotiation fails with a non-empty error. -/
theorem negotiate_month_distance_amended_witness :
    (negotiate defaultNegotiator
       { mcp_version := "2025-09", transport := "stdio",
         capabilities := [] }).success = false ∧
    (negotiate defaultNegotiator
       { mcp_version := "2025-09", transport := "stdio",
         capabilities := [] }).error ≠ none ∧
    (negotiate defaultNegotiator
       { mcp_version := "2025-09", transport := "stdio",
         capabilities := [] }).error ≠ some "" :=
  (negotiate_month_distance_amended
     { mcp_version := "2025-09", transport := "stdio", capabilities := [] }
     2025 9 (by decide) (by decide) (by decide) (by decide)).1 (by decide)

/-- C5: the negotiated capability list has exactly the elements of the
intersection of the client and server capability sets, independent of the
order of either input list (stated via arbitrary permutations of both). -/
theorem negotiateCapabilities_set_intersection (sv : NegotiatorState)
    (A A' B' : List String) (hA : A.Perm A')
    (hB : sv.serverCapabilities.Perm B') :
    (negotiateCapabilities sv A).toFinset = A'.toFinset ∩ B'.toFinset := by
  ext x
  simp [negotiateCapabilities, List.mem_filter, hA.mem_iff, hB.mem_iff]

/-- C5 witness: a shuffled client list against a shuffled server list
yields exactly the intersection set. -/
theorem negotiateCapabilities_set_intersection_witness :
    (negotiateCapabilities defaultNegotiator
       ["stream", "async", "extra"]).toFinset =
      (["async", "extra", "stream"] : List String).toFinset ∩
      (["registry", "async", "code_exec", "stream"] : List String).toFinset :=
  negotiateCapabilities_set_intersection defaultNegotiator
    ["stream", "async", "extra"] ["async", "extra", "stream"]
    ["registry", "async", "code_exec", "stream"] (by decide) (by decide)

/-- C6: on a non-legacy session whose negotiated capabilities lack
`async`, a modern request with mode `async` is executed synchronously:
the result is `{request_id, status success, result, metadata.duration_ms}`
and the call is not delegated to the job manager. -/
theorem handleToolCall_sync_without_async_capability (cfg : ServerConfig)
    (s : Session) (getTool : String → Option Tool)
    (validateInput : String → Bool) (req : ToolCallRequest) (dur : Nat)
    (tool : Tool) (hleg : s.isLegacy = false)
    (_hmode : req.mode = some "async")
    (hcap : s.capabilities.contains "async" = false)
    (hid : req.tool_id ≠ "") (htool : getTool req.tool_id = some tool)
    (hval : cfg.validationEnabled = false ∨
            validateInput req.arguments = true) :
    handleToolCall cfg (some s) getTool validateInput req dur =
      Except.ok (ToolCallResult.syncResult req.request_id "success"
        (tool.handler req.arguments) dur) := by
  have hcap' : "async" ∉ s.capabilities := by simpa using hcap
  rcases hval with hv | hv <;>
    simp [handleToolCall, hleg, hid, htool, hcap', hv]

/-- C6 witness: an async-mode call on the `["registry"]`-capability session
returns the synchronous success response. -/
theorem handleToolCall_sync_without_async_capability_witness :
    handleToolCall { validationEnabled := true, asyncEnabled := true }
      (some c6Session) c6GetTool (fun _ => true) c6Request 12 =
      Except.ok (ToolCallResult.syncResult c6Request.request_id "success"
        (c9Tool.handler c6Request.arguments) 12) :=
  handleToolCall_sync_without_async_capability
    { validationEnabled := true, asyncEnabled := true } c6Session c6GetTool
    (fun _ => true) c6Request 12 c9Tool rfl rfl rfl (by decide) rfl
    (Or.inr rfl)

/-- C9: when a first `loadTool` call succeeds, a second call with the same
name returns the identical cached instance, performs no dynamic import
(hence never re-invokes the creator function), and leaves the loader state
unchanged. -/
theorem loadTool_second_call_cached (importTool : String → Option Tool)
    (st st' : LoaderState) (nm : String) (t : Tool) (k : Nat)
    (h : loadTool importTool st nm = (some t, st', k)) :
    loadTool importTool st' nm = (some t, st', 0) := by
  unfold loadTool at h ⊢
  cases hc : mapGet st.toolCache nm with
  | some t0 =>
    simp only [hc] at h
    obtain ⟨h1, h2, _⟩ : some t0 = some t ∧ st = st' ∧ 0 = k := by
      simpa [Prod.ext_iff] using h
    subst h2
    rw [hc, h1]
  | none =>
    simp only [hc] at h
    cases hm : mapGet st.metadataCache nm with
    | none =>
      simp only [hm] at h
      simp [Prod.ext_iff] at h
    | some meta =>
      simp only [hm] at h
      cases he : importTool meta.filePath with
      | none =>
        simp only [he] at h
        simp [Prod.ext_iff] at h
      | some tool =>
        simp only [he] at h
        obtain ⟨h1, h2, _⟩ : some tool = some t ∧
            { st with toolCache := mapSet st.toolCache nm tool } = st' ∧
            1 = k := by
          simpa [Prod.ext_iff] using h
        subst h2
        simp [mapGet_mapSet_self, h1]

/-- C9 witness: loading "alpha" twice from the demo loader returns the
same instance the second time with zero imports and the same state. -/
theorem loadTool_second_call_cached_witness :
    loadTool c9Import (loadTool c9Import c9Loader "alpha").2.1 "alpha" =
      (some c9Tool, (loadTool c9Import c9Loader "alpha").2.1, 0) :=
  loadTool_second_call_cached c9Import c9Loader
    (loadTool c9Import c9Loader "alpha").2.1 "alpha" c9Tool 1 rfl

/-- The exact-match guard accepts exactly the entries whose field equals
every provided non-empty query value. -/
theorem exactGuard_iff (o : Option String) (v : String) :
    exactGuard o v = true ↔ ∀ c, o = some c → c ≠ "" → v = c := by
  cases o with
  | none => simp [exactGuard]
  | some c => by_cases hce : c = "" <;> simp [exactGuard, hce]

/-- The tag guard accepts exactly the entries containing every query
tag. -/
theorem tagsGuard_iff (o : Option (List String)) (tags : List String) :
    tagsGuard o tags = true ↔ ∀ ts, o = some ts → ∀ t ∈ ts, t ∈ tags := by
  cases o with
  | none => simp [tagsGuard]
  | some ts =>
    by_cases hl : ts.length = 0
    · simp [tagsGuard, hl, List.length_eq_zero.mp hl]
    · simp [tagsGuard, hl, List.all_eq_true]

/-- The pattern guard accepts exactly the entries whose lowercased name or
description contains the lowercased pattern. -/
theorem patternGuard_iff (o : Option String) (nm desc : String) :
    patternGuard o nm desc = true ↔
      ∀ p, o = some p → p ≠ "" →
        (List.IsInfix (toLowerChars p) (toLowerChars nm) ∨
         List.IsInfix (toLowerChars p) (toLowerChars desc)) := by
  cases o with
  | none => simp [patternGuard]
  | some p => by_cases hp : p = "" <;> simp [patternGuard, hp]

/-- C8: `searchTools` returns exactly the metadata entries that pass all
provided filters conjointly — category and detail level match exactly, the
entry contains every query tag, and the name pattern occurs
case-insensitively in the name or the description — and the result is
sorted by name. -/
theorem searchTools_exact_filter_sorted (st : LoaderState) (q : SearchQuery) :
    (∀ m : ToolMetadataEntry,
       m ∈ searchTools st q ↔
         m ∈ st.metadataCache.map Prod.snd ∧
         (∀ c, q.category = some c → c ≠ "" → m.category = c) ∧
         (∀ d, q.detailLevel = some d → d ≠ "" → m.detailLevel = d) ∧
         (∀ ts, q.tags = some ts → ∀ t ∈ ts, t ∈ m.tags) ∧
         (∀ p, q.namePattern = some p → p ≠ "" →
            (List.IsInfix (toLowerChars p) (toLowerChars m.name) ∨
             List.IsInfix (toLowerChars p) (toLowerChars m.description)))) ∧
    List.Sorted metaLe (searchTools st q) := by
  constructor
  · intro m
    unfold searchTools
    rw [List.mem_insertionSort, List.mem_filter]
    apply and_congr_right
    intro _
    unfold matchesQuery
    simp only [Bool.and_eq_true, exactGuard_iff, tagsGuard_iff,
      patternGuard_iff]
    tauto
  · exact List.sorted_insertionSort metaLe _

end ClaudeFlow
